import Mathlib

/-!
Shallow embedding of `src/source.py`: a user-report generator that filters a
list of users by age and active status, filters each surviving user's
activities through a caller-supplied predicate, and renders the result into a
flat list of report entries.

Python-level failure modes are made explicit with `Except`:
  * a missing `address` key raises `KeyError` (unguarded `user.address[...]`),
  * calling a non-callable `activity_filter` value (e.g. `None`) raises
    `TypeError`,
  * unpacking an activity tuple that is not a triple raises `ValueError`.
-/

/-- Calendar date, the part of a Python `datetime` that `strftime('%Y-%m-%d')`
reads. -/
structure Date where
  year : Nat
  month : Nat
  day : Nat
deriving DecidableEq, Repr

/-- Decimal rendering of `n % 100`, zero-padded to two characters, as produced
by the `%m` / `%d` directives of `strftime`. -/
def pad2 (n : Nat) : String :=
  String.mk [Nat.digitChar (n / 10 % 10), Nat.digitChar (n % 10)]

/-- Decimal rendering of `n % 10000`, zero-padded to four characters, as
produced by the `%Y` directive of `strftime` on `datetime` years (which lie in
`1..9999`). -/
def pad4 (n : Nat) : String :=
  String.mk [Nat.digitChar (n / 1000 % 10), Nat.digitChar (n / 100 % 10),
    Nat.digitChar (n / 10 % 10), Nat.digitChar (n % 10)]

/-- The rendering `date.strftime('%Y-%m-%d')` of a date. -/
def Date.strftimeYmd (d : Date) : String :=
  pad4 d.year ++ "-" ++ pad2 d.month ++ "-" ++ pad2 d.day

/-- The `UserRole` enumeration of `src/source.py`. -/
inductive UserRole
  | ADMIN
  | USER
  | GUEST
deriving DecidableEq, Repr

/-- The underlying string value of each `UserRole` member. -/
def UserRole.value : UserRole → String
  | .ADMIN => "Admin"
  | .USER => "User"
  | .GUEST => "Guest"

/-- A well-formed `UserActivity = Tuple[str, str, datetime]`. -/
def UserActivity := String × String × Date

instance : DecidableEq UserActivity := by
  unfold UserActivity
  infer_instance

/-- A runtime Python value stored in a user's `activities` list: either a
well-formed `(actor, action, timestamp)` triple, or some other value that does
not unpack into exactly three components (`ValueError` on unpacking). -/
inductive PyActivity
  | triple (actor : String) (action : String) (date : Date)
  | malformed
deriving DecidableEq, Repr

/-- Returns true when the stored activity is a well-formed triple. -/
def PyActivity.isTriple : PyActivity → Bool
  | .triple _ _ _ => true
  | .malformed => false

/-- The Python exceptions the routine can raise. -/
inductive PyError
  | keyError (key : String)
  | typeErrorNotCallable
  | valueErrorUnpack
deriving DecidableEq, Repr

/-- A runtime value stored in the `options` dict: a boolean, a callable over
activity values, or Python `None` (the value the parameter annotation
`Optional[Callable[[UserActivity], bool]]` permits). -/
inductive OptVal
  | bool (b : Bool)
  | func (f : PyActivity → Bool)
  | none

/-- Python truthiness of an `OptVal`, as used by `(include_inactive or ...)`:
`False`/`None` are falsy, a function object and `True` are truthy. -/
def OptVal.truthy : OptVal → Bool
  | .bool b => b
  | .func _ => true
  | .none => false

/-- Calling an `OptVal` on an activity: succeeds only when the value is a
function; calling a boolean or `None` raises `TypeError`. -/
def OptVal.call (v : OptVal) (a : PyActivity) : Except PyError Bool :=
  match v with
  | .func f => .ok (f a)
  | _ => .error .typeErrorNotCallable

/-- Lookup in a Python dict with string keys (first binding wins, matching a
dict in which keys are unique). -/
def dictGet (d : List (String × String)) (k : String) : Option String :=
  (d.find? (fun p => p.1 == k)).map (fun p => p.2)

/-- Lookup `options.get(k, default)` on the options dict. -/
def optGet (opts : List (String × OptVal)) (k : String) (dflt : OptVal) : OptVal :=
  match opts.find? (fun p => p.1 == k) with
  | some p => p.2
  | Option.none => dflt

/-- The `User` class of `src/source.py`. -/
structure User where
  name : String
  age : Int
  active : Bool
  role : UserRole
  address : List (String × String)
  activities : List PyActivity

/-- The `format_activity` function of `src/source.py`, on a well-formed
activity triple. -/
def format_activity (activity : UserActivity) : String :=
  activity.1 ++ " performed " ++ activity.2.1 ++ " on " ++ activity.2.2.strftimeYmd

/-- Applying `format_activity` to a runtime activity value: unpacking a value
that is not a triple raises `ValueError`. -/
def formatPyActivity : PyActivity → Except PyError String
  | .triple actor action date => .ok (format_activity (actor, action, date))
  | .malformed => .error .valueErrorUnpack

/-- The f-string
`f"{user.address['street']}, {user.address['city']}, {user.address['country']}"`:
the three unguarded lookups are evaluated left to right, and a missing key
raises `KeyError` for that key. -/
def formatAddress (addr : List (String × String)) : Except PyError String :=
  match dictGet addr "street" with
  | Option.none => .error (.keyError "street")
  | some street =>
    match dictGet addr "city" with
    | Option.none => .error (.keyError "city")
    | some city =>
      match dictGet addr "country" with
      | Option.none => .error (.keyError "country")
      | some country => .ok (street ++ ", " ++ city ++ ", " ++ country)

/-- The list comprehension
`[format_activity(a) for a in activities if activity_filter(a)]`: for each
activity in order, the filter value is called (raising `TypeError` if it is
not callable), and each surviving activity is formatted (raising `ValueError`
if malformed). -/
def renderActivities (filt : OptVal) : List PyActivity → Except PyError (List String)
  | [] => .ok []
  | a :: rest =>
    match filt.call a with
    | .error e => .error e
    | .ok keep =>
      if keep then
        match formatPyActivity a with
        | .error e => .error e
        | .ok s =>
          match renderActivities filt rest with
          | .error e => .error e
          | .ok ss => .ok (s :: ss)
      else
        renderActivities filt rest

/-- One output entry of the report: the dict
`{"name": ..., "age": ..., "active": ..., "role": ..., "address": ..., "activities": ...}`.
The `active` field keeps its boolean type; `role` and `address` are strings. -/
structure ReportEntry where
  name : String
  age : Int
  active : Bool
  role : String
  address : String
  activities : List String
deriving DecidableEq, Repr

/-- Building the report entry for one qualifying user: the dict fields are
evaluated in source order, so the address lookups run before the activity
comprehension. -/
def buildEntry (filt : OptVal) (u : User) : Except PyError ReportEntry :=
  match formatAddress u.address with
  | .error e => .error e
  | .ok addr =>
    match renderActivities filt u.activities with
    | .error e => .error e
    | .ok acts => .ok ⟨u.name, u.age, u.active, u.role.value, addr, acts⟩

/-- The per-user qualification test of the comprehension:
`user.age >= min_age and (include_inactive or user.active)`. -/
def qualifies (min_age : Int) (include_inactive : Bool) (u : User) : Bool :=
  decide (min_age ≤ u.age) && (include_inactive || u.active)

/-- The comprehension over `users`: each user is tested, and each qualifying
user's entry is built, in input order, failing fast on the first error. -/
def reportAux (min_age : Int) (include_inactive : Bool) (filt : OptVal) :
    List User → Except PyError (List ReportEntry)
  | [] => .ok []
  | u :: rest =>
    if qualifies min_age include_inactive u then
      match buildEntry filt u with
      | .error e => .error e
      | .ok e =>
        match reportAux min_age include_inactive filt rest with
        | .error e2 => .error e2
        | .ok es => .ok (e :: es)
    else
      reportAux min_age include_inactive filt rest

/-- The value `options.get('include_inactive', False)` after the
`if options is None: options = {}` guard. -/
def includeInactiveOf (options : Option (List (String × OptVal))) : OptVal :=
  optGet (options.getD []) "include_inactive" (.bool false)

/-- The value `options.get('activity_filter', lambda x: True)` after the
`if options is None: options = {}` guard. -/
def activityFilterOf (options : Option (List (String × OptVal))) : OptVal :=
  optGet (options.getD []) "activity_filter" (.func (fun _ => true))

/-- The `generate_user_activity_report` function of `src/source.py`. A
`Option.none` options argument models the omitted / `None` default. -/
def generate_user_activity_report (users : List User) (min_age : Int)
    (options : Option (List (String × OptVal))) : Except PyError (List ReportEntry) :=
  reportAux min_age (includeInactiveOf options).truthy (activityFilterOf options) users

/-- Fail-fast map over a list with an `Except`-valued function: the reference
shape (filter first, then map) against which the single-pass comprehension of
`reportAux` is proved equal. -/
def mapExcept {ε α β : Type} (f : α → Except ε β) : List α → Except ε (List β)
  | [] => .ok []
  | a :: l =>
    match f a with
    | .error e => .error e
    | .ok b =>
      match mapExcept f l with
      | .error e => .error e
      | .ok bs => .ok (b :: bs)

/-- Alice, the first sample user of the example usage in `src/source.py`. -/
def alice : User :=
  { name := "Alice", age := 25, active := true, role := .ADMIN
    address := [("street", "123 Main St"), ("city", "Metropolis"), ("country", "USA")]
    activities := [.triple "Alice" "login" ⟨2023, 1, 1⟩,
                   .triple "Alice" "purchase" ⟨2023, 2, 15⟩] }

/-- Bob, the second sample user of the example usage in `src/source.py`. -/
def bob : User :=
  { name := "Bob", age := 17, active := false, role := .USER
    address := [("street", "456 Elm St"), ("city", "Gotham"), ("country", "USA")]
    activities := [.triple "Bob" "logout" ⟨2023, 3, 22⟩] }

/-- Charlie, the third sample user of the example usage in `src/source.py`. -/
def charlie : User :=
  { name := "Charlie", age := 30, active := true, role := .GUEST
    address := [("street", "789 Oak St"), ("city", "Star City"), ("country", "USA")]
    activities := [.triple "Charlie" "login" ⟨2023, 4, 10⟩] }

theorem reportAux_eq (min_age : Int) (inc : Bool) (filt : OptVal) (users : List User) :
    reportAux min_age inc filt users =
      mapExcept (buildEntry filt) (users.filter (qualifies min_age inc)) := by
  induction users with
  | nil => rfl
  | cons u rest ih =>
    cases h : qualifies min_age inc u with
    | true =>
      simp only [reportAux, h, if_true, List.filter_cons, ih, mapExcept]
      cases buildEntry filt u with
      | error e => rfl
      | ok e =>
        cases mapExcept (buildEntry filt) (List.filter (qualifies min_age inc) rest) <;> rfl
    | false => simp [reportAux, h, List.filter_cons, ih]

theorem generate_eq (users : List User) (min_age : Int)
    (options : Option (List (String × OptVal))) :
    generate_user_activity_report users min_age options =
      mapExcept (buildEntry (activityFilterOf options))
        (users.filter (qualifies min_age (includeInactiveOf options).truthy)) :=
  reportAux_eq min_age (includeInactiveOf options).truthy (activityFilterOf options) users

theorem mapExcept_ok_forall {ε α β : Type} {f : α → Except ε β} :
    ∀ {l : List α} {r : List β}, mapExcept f l = .ok r → ∀ a ∈ l, ∃ b, f a = .ok b := by
  intro l
  induction l with
  | nil => intro r _ a ha; simp at ha
  | cons x xs ih =>
    intro r h a ha
    cases hfx : f x with
    | error e => simp [mapExcept, hfx] at h
    | ok b =>
      cases hxs : mapExcept f xs with
      | error e => simp [mapExcept, hfx, hxs] at h
      | ok r2 =>
        rcases List.mem_cons.mp ha with rfl | ha2
        · exact ⟨b, hfx⟩
        · exact ih hxs a ha2

theorem mapExcept_ok_of_forall {ε α β : Type} {f : α → Except ε β} :
    ∀ {l : List α}, (∀ a ∈ l, ∃ b, f a = .ok b) → ∃ r, mapExcept f l = .ok r := by
  intro l
  induction l with
  | nil => intro _; exact ⟨[], rfl⟩
  | cons x xs ih =>
    intro h
    obtain ⟨b, hb⟩ := h x (List.mem_cons_self x xs)
    obtain ⟨r, hr⟩ := ih (fun a ha => h a (List.mem_cons_of_mem x ha))
    exact ⟨b :: r, by simp [mapExcept, hb, hr]⟩

theorem mapExcept_ok_length {ε α β : Type} {f : α → Except ε β} :
    ∀ {l : List α} {r : List β}, mapExcept f l = .ok r → r.length = l.length := by
  intro l
  induction l with
  | nil => intro r h; simp [mapExcept] at h; simp [← h]
  | cons x xs ih =>
    intro r h
    cases hfx : f x with
    | error e => simp [mapExcept, hfx] at h
    | ok b =>
      cases hxs : mapExcept f xs with
      | error e => simp [mapExcept, hfx, hxs] at h
      | ok r2 =>
        simp [mapExcept, hfx, hxs] at h
        subst h
        simp [ih hxs]

theorem mapExcept_ok_mem {ε α β : Type} {f : α → Except ε β} :
    ∀ {l : List α} {r : List β}, mapExcept f l = .ok r → ∀ a ∈ l, ∃ b ∈ r, f a = .ok b := by
  intro l
  induction l with
  | nil => intro r _ a ha; simp at ha
  | cons x xs ih =>
    intro r h a ha
    cases hfx : f x with
    | error e => simp [mapExcept, hfx] at h
    | ok b =>
      cases hxs : mapExcept f xs with
      | error e => simp [mapExcept, hfx, hxs] at h
      | ok r2 =>
        simp [mapExcept, hfx, hxs] at h
        subst h
        rcases List.mem_cons.mp ha with rfl | ha2
        · exact ⟨b, List.mem_cons_self b r2, hfx⟩
        · obtain ⟨c, hc, hfc⟩ := ih hxs a ha2
          exact ⟨c, List.mem_cons_of_mem b hc, hfc⟩

theorem mapExcept_error_mem {ε α β : Type} {f : α → Except ε β} :
    ∀ {l : List α} {e : ε}, mapExcept f l = .error e → ∃ a ∈ l, f a = .error e := by
  intro l
  induction l with
  | nil => intro e h; simp [mapExcept] at h
  | cons x xs ih =>
    intro e h
    cases hfx : f x with
    | error e2 =>
      simp [mapExcept, hfx] at h
      exact ⟨x, List.mem_cons_self x xs, by rw [hfx, h]⟩
    | ok b =>
      cases hxs : mapExcept f xs with
      | error e2 =>
        simp [mapExcept, hfx, hxs] at h
        subst h
        obtain ⟨a, ha, hfa⟩ := ih hxs
        exact ⟨a, List.mem_cons_of_mem x ha, hfa⟩
      | ok r2 => simp [mapExcept, hfx, hxs] at h

theorem renderActivities_func (f : PyActivity → Bool) (acts : List PyActivity) :
    renderActivities (.func f) acts = mapExcept formatPyActivity (acts.filter f) := by
  induction acts with
  | nil => rfl
  | cons a rest ih =>
    cases hfa : f a with
    | true =>
      simp only [renderActivities, OptVal.call, hfa, if_true, List.filter_cons, mapExcept, ih]
      cases formatPyActivity a with
      | error e => rfl
      | ok s =>
        cases mapExcept formatPyActivity (List.filter f rest) <;> rfl
    | false =>
      simp [renderActivities, OptVal.call, hfa, List.filter_cons, ih]

theorem renderActivities_ok_sublist (filt : OptVal) :
    ∀ {acts : List PyActivity} {ss : List String},
      renderActivities filt acts = .ok ss →
      ∃ keep, keep.Sublist acts ∧ mapExcept formatPyActivity keep = .ok ss := by
  intro acts
  induction acts with
  | nil =>
    intro ss h
    simp only [renderActivities] at h
    exact ⟨[], List.Sublist.refl [], by simp only [mapExcept]; exact h⟩
  | cons a rest ih =>
    intro ss h
    cases hc : filt.call a with
    | error e => simp [renderActivities, hc] at h
    | ok keep =>
      cases keep with
      | false =>
        simp only [renderActivities, hc, if_false] at h
        obtain ⟨k, hk1, hk2⟩ := ih h
        exact ⟨k, hk1.cons a, hk2⟩
      | true =>
        simp only [renderActivities, hc, if_true] at h
        cases hfa : formatPyActivity a with
        | error e => rw [hfa] at h; simp at h
        | ok s =>
          rw [hfa] at h
          cases hrest : renderActivities filt rest with
          | error e => rw [hrest] at h; simp at h
          | ok ss2 =>
            rw [hrest] at h
            simp only [Except.ok.injEq] at h
            subst h
            obtain ⟨k, hk1, hk2⟩ := ih hrest
            exact ⟨a :: k, hk1.cons₂ a, by simp [mapExcept, hfa, hk2]⟩

theorem renderActivities_triples_ok (f : PyActivity → Bool) (acts : List PyActivity)
    (hwf : ∀ a ∈ acts, a.isTriple = true) :
    ∃ ss, renderActivities (.func f) acts = .ok ss := by
  rw [renderActivities_func]
  apply mapExcept_ok_of_forall
  intro a ha
  have := hwf a (List.mem_of_mem_filter ha)
  cases a with
  | triple actor action date => exact ⟨_, rfl⟩
  | malformed => simp [PyActivity.isTriple] at this

theorem renderActivities_none_cons (a : PyActivity) (rest : List PyActivity) :
    renderActivities OptVal.none (a :: rest) = .error .typeErrorNotCallable := rfl

theorem formatAddress_ok (addr : List (String × String)) (street city country : String)
    (hs : dictGet addr "street" = some street)
    (hc : dictGet addr "city" = some city)
    (hn : dictGet addr "country" = some country) :
    formatAddress addr = .ok (street ++ ", " ++ city ++ ", " ++ country) := by
  simp [formatAddress, hs, hc, hn]

theorem formatAddress_error_inv (addr : List (String × String)) (e : PyError)
    (h : formatAddress addr = .error e) : ∃ k, e = .keyError k := by
  unfold formatAddress at h
  cases hs : dictGet addr "street" with
  | none => rw [hs] at h; exact ⟨"street", (Except.error.inj h).symm⟩
  | some s =>
    rw [hs] at h
    cases hc : dictGet addr "city" with
    | none => rw [hc] at h; exact ⟨"city", (Except.error.inj h).symm⟩
    | some c =>
      rw [hc] at h
      cases hn : dictGet addr "country" with
      | none => rw [hn] at h; exact ⟨"country", (Except.error.inj h).symm⟩
      | some n => rw [hn] at h; exact Except.noConfusion h

theorem formatAddress_missing (addr : List (String × String))
    (h : dictGet addr "street" = Option.none ∨ dictGet addr "city" = Option.none ∨
         dictGet addr "country" = Option.none) :
    ∃ k, formatAddress addr = .error (.keyError k) := by
  unfold formatAddress
  cases hs : dictGet addr "street" with
  | none => exact ⟨"street", rfl⟩
  | some s =>
    cases hc : dictGet addr "city" with
    | none => exact ⟨"city", rfl⟩
    | some c =>
      cases hn : dictGet addr "country" with
      | none => exact ⟨"country", rfl⟩
      | some n =>
        rw [hs, hc, hn] at h
        simp at h

theorem buildEntry_ok_inv (filt : OptVal) (u : User) (e : ReportEntry)
    (h : buildEntry filt u = .ok e) :
    ∃ addr acts, formatAddress u.address = .ok addr ∧
      renderActivities filt u.activities = .ok acts ∧
      e = ⟨u.name, u.age, u.active, u.role.value, addr, acts⟩ := by
  unfold buildEntry at h
  cases ha : formatAddress u.address with
  | error e2 => rw [ha] at h; simp at h
  | ok addr =>
    rw [ha] at h
    cases hr : renderActivities filt u.activities with
    | error e2 => rw [hr] at h; simp at h
    | ok acts =>
      rw [hr] at h
      simp only [Except.ok.injEq] at h
      exact ⟨addr, acts, rfl, rfl, h.symm⟩

theorem buildEntry_error_inv (filt : OptVal) (u : User) (e : PyError)
    (h : buildEntry filt u = .error e) :
    formatAddress u.address = .error e ∨
      (∃ addr, formatAddress u.address = .ok addr ∧
        renderActivities filt u.activities = .error e) := by
  unfold buildEntry at h
  cases ha : formatAddress u.address with
  | error e2 =>
    rw [ha] at h
    left
    rw [Except.error.inj h]
  | ok addr =>
    rw [ha] at h
    cases hr : renderActivities filt u.activities with
    | error e2 =>
      rw [hr] at h
      right
      exact ⟨addr, rfl, by rw [Except.error.inj h]⟩
    | ok acts => rw [hr] at h; exact Except.noConfusion h

/-- Numeric value of an ASCII digit character. -/
def digitVal (c : Char) : Nat := c.toNat - 48

/-- Numeric value of a list of ASCII digit characters read as a decimal
numeral. -/
def decimalVal (l : List Char) : Nat := l.foldl (fun acc c => 10 * acc + digitVal c) 0

theorem digitVal_digitChar : ∀ k < 10, digitVal (Nat.digitChar k) = k ∧ (Nat.digitChar k).isDigit = true := by decide

theorem pad4_spec (y : Nat) (hy : y ≤ 9999) :
    (pad4 y).length = 4 ∧ (pad4 y).data.all Char.isDigit = true ∧
      decimalVal (pad4 y).data = y := by
  have h3 := digitVal_digitChar (y / 1000 % 10) (Nat.mod_lt _ (by norm_num))
  have h2 := digitVal_digitChar (y / 100 % 10) (Nat.mod_lt _ (by norm_num))
  have h1 := digitVal_digitChar (y / 10 % 10) (Nat.mod_lt _ (by norm_num))
  have h0 := digitVal_digitChar (y % 10) (Nat.mod_lt _ (by norm_num))
  refine ⟨rfl, ?_, ?_⟩
  · simp [pad4, List.all, h3.2, h2.2, h1.2, h0.2]
  · simp only [pad4, decimalVal, List.foldl, h3.1, h2.1, h1.1, h0.1]
    omega

theorem pad2_spec (m : Nat) (hm : m ≤ 99) :
    (pad2 m).length = 2 ∧ (pad2 m).data.all Char.isDigit = true ∧
      decimalVal (pad2 m).data = m := by
  have h1 := digitVal_digitChar (m / 10 % 10) (Nat.mod_lt _ (by norm_num))
  have h0 := digitVal_digitChar (m % 10) (Nat.mod_lt _ (by norm_num))
  refine ⟨rfl, ?_, ?_⟩
  · simp [pad2, List.all, h1.2, h0.2]
  · simp only [pad2, decimalVal, List.foldl, h1.1, h0.1]
    omega

/-- C1: for every list of users, every integer minAge and every options value,
a user contributes an entry to the output of `generate_user_activity_report`
if and only if its age is `>= minAge` and (`includeInactive` is true or its
`active` flag is true); in particular a user with `age < minAge` never
appears, regardless of options. -/
theorem C1_user_qualification (users : List User) (min_age : Int)
    (options : Option (List (String × OptVal))) :
    generate_user_activity_report users min_age options =
      mapExcept (buildEntry (activityFilterOf options))
        (users.filter (qualifies min_age (includeInactiveOf options).truthy)) ∧
    (∀ u : User, qualifies min_age (includeInactiveOf options).truthy u = true ↔
      (min_age ≤ u.age ∧ ((includeInactiveOf options).truthy = true ∨ u.active = true))) ∧
    (∀ u : User, u.age < min_age →
      u ∉ users.filter (qualifies min_age (includeInactiveOf options).truthy)) := by
  refine ⟨generate_eq users min_age options, ?_, ?_⟩
  · intro u
    simp [qualifies, Bool.and_eq_true, Bool.or_eq_true, decide_eq_true_iff]
  · intro u hlt hmem
    have hq := (List.mem_filter.mp hmem).2
    simp only [qualifies, Bool.and_eq_true, decide_eq_true_iff] at hq
    omega

/-- C1 witness: Bob (age 17) is excluded for `minAge = 18` even with
`includeInactive = true`. -/
theorem C1_user_qualification_witness :
    bob ∉ List.filter
      (qualifies 18 (includeInactiveOf (some [("include_inactive", OptVal.bool true)])).truthy)
      [alice, bob, charlie] :=
  (C1_user_qualification [alice, bob, charlie] 18
    (some [("include_inactive", OptVal.bool true)])).2.2 bob (by decide)

/-- C2: each qualifying user appears exactly once, in the same relative order
as in the input sequence, and the rendered activities of an entry preserve the
original order of the user's activities list. -/
theorem C2_order_preservation (users : List User) (min_age : Int)
    (options : Option (List (String × OptVal))) :
    generate_user_activity_report users min_age options =
      mapExcept (buildEntry (activityFilterOf options))
        (users.filter (qualifies min_age (includeInactiveOf options).truthy)) ∧
    (∀ res, generate_user_activity_report users min_age options = .ok res →
      res.length =
        (users.filter (qualifies min_age (includeInactiveOf options).truthy)).length) ∧
    (∀ (filt : OptVal) (acts : List PyActivity) (ss : List String),
      renderActivities filt acts = .ok ss →
      ∃ keep, keep.Sublist acts ∧ mapExcept formatPyActivity keep = .ok ss) := by
  refine ⟨generate_eq users min_age options, ?_, ?_⟩
  · intro res h
    exact mapExcept_ok_length ((generate_eq users min_age options).symm.trans h)
  · intro filt acts ss h
    exact renderActivities_ok_sublist filt h

/-- C2 witness: Alice's two activities are rendered from an in-order sublist
of her activity list. -/
theorem C2_order_preservation_witness :
    ∃ keep, keep.Sublist alice.activities ∧ mapExcept formatPyActivity keep =
      .ok ["Alice performed login on 2023-01-01", "Alice performed purchase on 2023-02-15"] :=
  (C2_order_preservation [] 0 Option.none).2.2 (OptVal.func fun _ => true)
    alice.activities _ rfl

/-- C5: `format_activity` returns exactly
`"<actor> performed <action> on <YYYY-MM-DD>"`, where the date part is the
four-digit year, two-digit zero-padded month and two-digit zero-padded day,
hyphen-separated, with no time-of-day component; in particular the
`("Alice", "login", 2023-01-01)` example renders as
`"Alice performed login on 2023-01-01"`. -/
theorem C5_format_activity_shape (actor action : String) (d : Date)
    (hy : d.year ≤ 9999) (hm : d.month ≤ 99) (hd : d.day ≤ 99) :
    format_activity (actor, action, d) =
      actor ++ " performed " ++ action ++ " on " ++ d.strftimeYmd ∧
    d.strftimeYmd = pad4 d.year ++ "-" ++ pad2 d.month ++ "-" ++ pad2 d.day ∧
    (pad4 d.year).length = 4 ∧ (pad2 d.month).length = 2 ∧ (pad2 d.day).length = 2 ∧
    (pad4 d.year).data.all Char.isDigit = true ∧
    (pad2 d.month).data.all Char.isDigit = true ∧
    (pad2 d.day).data.all Char.isDigit = true ∧
    decimalVal (pad4 d.year).data = d.year ∧
    decimalVal (pad2 d.month).data = d.month ∧
    decimalVal (pad2 d.day).data = d.day ∧
    format_activity ("Alice", "login", ⟨2023, 1, 1⟩) = "Alice performed login on 2023-01-01" := by
  obtain ⟨hy1, hy2, hy3⟩ := pad4_spec d.year hy
  obtain ⟨hm1, hm2, hm3⟩ := pad2_spec d.month hm
  obtain ⟨hd1, hd2, hd3⟩ := pad2_spec d.day hd
  exact ⟨rfl, rfl, hy1, hm1, hd1, hy2, hm2, hd2, hy3, hm3, hd3, rfl⟩

/-- C5 witness: the round-trip example at concrete input. -/
theorem C5_format_activity_shape_witness :
    format_activity ("Alice", "login", ⟨2023, 1, 1⟩) = "Alice performed login on 2023-01-01" :=
  (C5_format_activity_shape "Alice" "login" ⟨2023, 1, 1⟩ (by norm_num) (by norm_num)
    (by norm_num)).2.2.2.2.2.2.2.2.2.2.2

/-- C7: calling `generate_user_activity_report` with the options argument
omitted returns exactly the same result as calling it with options binding
`include_inactive` to false and `activity_filter` to the accept-all
predicate. -/
theorem C7_default_options (users : List User) (min_age : Int) :
    generate_user_activity_report users min_age Option.none =
      generate_user_activity_report users min_age
        (some [("include_inactive", OptVal.bool false),
               ("activity_filter", OptVal.func (fun _ => true))]) := rfl

/-- Options value used to exercise an activity filter that rejects every
activity. -/
def rejectOpts : Option (List (String × OptVal)) :=
  some [("activity_filter", OptVal.func (fun _ => false))]

/-- C3: the activity predicate never affects user qualification: a qualifying
user all of whose activities are rejected by the filter still produces an
entry in the output, and that entry's activities field is the empty list. -/
theorem C3_filter_does_not_affect_qualification (users : List User) (min_age : Int)
    (options : Option (List (String × OptVal))) (res : List ReportEntry)
    (f : PyActivity → Bool) (u : User)
    (hgen : generate_user_activity_report users min_age options = .ok res)
    (hf : activityFilterOf options = OptVal.func f)
    (hmem : u ∈ users)
    (hq : qualifies min_age (includeInactiveOf options).truthy u = true)
    (hrej : ∀ a ∈ u.activities, f a = false) :
    ∃ e ∈ res, buildEntry (activityFilterOf options) u = .ok e ∧ e.activities = [] := by
  have hgen2 := (generate_eq users min_age options).symm.trans hgen
  have humem : u ∈ users.filter (qualifies min_age (includeInactiveOf options).truthy) :=
    List.mem_filter.mpr ⟨hmem, hq⟩
  obtain ⟨e, he, hbe⟩ := mapExcept_ok_mem hgen2 u humem
  refine ⟨e, he, hbe, ?_⟩
  obtain ⟨addr, acts, ha, hr, hee⟩ := buildEntry_ok_inv _ u e hbe
  rw [hf, renderActivities_func] at hr
  have hnil : u.activities.filter f = [] :=
    List.filter_eq_nil_iff.mpr (fun a ha2 => by simp [hrej a ha2])
  rw [hnil] at hr
  simp only [mapExcept, Except.ok.injEq] at hr
  rw [hee]
  simpa using hr.symm

/-- C3 witness: Alice qualifies under a reject-all filter and her entry has an
empty activity list. -/
theorem C3_filter_does_not_affect_qualification_witness :
    ∃ e ∈ [(⟨"Alice", 25, true, "Admin", "123 Main St, Metropolis, USA", []⟩ : ReportEntry)],
      buildEntry (activityFilterOf rejectOpts) alice = .ok e ∧ e.activities = [] :=
  C3_filter_does_not_affect_qualification [alice] 18 rejectOpts _ (fun _ => false) alice
    rfl rfl (List.mem_cons_self alice []) (by decide) (fun a ha => rfl)

/-- A user with a complete three-key address, used as a concrete entry-shape
witness. -/
def dana : User :=
  { name := "Dana", age := 40, active := false, role := .USER
    address := [("street", "1 A St"), ("city", "B"), ("country", "C")]
    activities := [] }

/-- The report entry produced for `dana`. -/
def danaEntry : ReportEntry :=
  ⟨"Dana", 40, false, "User", "1 A St, B, C", []⟩

/-- C6: the produced entry copies `name`, `age` and `active` verbatim (with
`active` still boolean-typed, as the `ReportEntry.active : Bool` field), sets
`role` to the role's display label (one of "Admin", "User", "Guest"), and sets
`address` to exactly `"<street>, <city>, <country>"`, comma-space separated,
in that fixed order. -/
theorem C6_entry_fields (filt : OptVal) (u : User) (e : ReportEntry)
    (street city country : String)
    (hs : dictGet u.address "street" = some street)
    (hc : dictGet u.address "city" = some city)
    (hn : dictGet u.address "country" = some country)
    (he : buildEntry filt u = .ok e) :
    e.name = u.name ∧ e.age = u.age ∧ e.active = u.active ∧
    e.role = u.role.value ∧
    (e.role = "Admin" ∨ e.role = "User" ∨ e.role = "Guest") ∧
    e.address = street ++ ", " ++ city ++ ", " ++ country := by
  obtain ⟨addr, acts, ha, hr, hee⟩ := buildEntry_ok_inv filt u e he
  rw [formatAddress_ok u.address street city country hs hc hn] at ha
  have haddr := Except.ok.inj ha
  subst hee
  refine ⟨rfl, rfl, rfl, rfl, ?_, haddr.symm⟩
  cases hu : u.role <;> simp [UserRole.value]

/-- C6 witness: the entry for `dana` at a concrete input. -/
theorem C6_entry_fields_witness :
    danaEntry.name = dana.name ∧ danaEntry.age = dana.age ∧
    danaEntry.active = dana.active ∧ danaEntry.role = dana.role.value ∧
    (danaEntry.role = "Admin" ∨ danaEntry.role = "User" ∨ danaEntry.role = "Guest") ∧
    danaEntry.address = "1 A St" ++ ", " ++ "B" ++ ", " ++ "C" :=
  C6_entry_fields (OptVal.func fun _ => true) dana danaEntry "1 A St" "B" "C"
    rfl rfl rfl rfl

/-- C8: a user failing the qualification test is never inspected further: the
output on a list containing that user equals the output on the list with the
user removed, even when that user's address lacks keys or its activities are
malformed, so such a user never causes the call to fail. -/
theorem C8_non_qualifying_user_ignored (pre post : List User) (u : User) (min_age : Int)
    (options : Option (List (String × OptVal)))
    (hq : qualifies min_age (includeInactiveOf options).truthy u = false) :
    generate_user_activity_report (pre ++ u :: post) min_age options =
      generate_user_activity_report (pre ++ post) min_age options := by
  unfold generate_user_activity_report
  rw [reportAux_eq, reportAux_eq, List.filter_append, List.filter_append,
    List.filter_cons_of_neg (by simp [hq])]

/-- Bob with a broken address and a malformed activity tuple: still inert
because he fails the age test. -/
def bobBroken : User :=
  { bob with address := [], activities := [PyActivity.malformed] }

/-- C8 witness: removing the non-qualifying broken user leaves the report
unchanged (and in particular does not make the call fail). -/
theorem C8_non_qualifying_user_ignored_witness :
    generate_user_activity_report ([alice] ++ bobBroken :: []) 18 Option.none =
      generate_user_activity_report ([alice] ++ []) 18 Option.none :=
  C8_non_qualifying_user_ignored [alice] [] bobBroken 18 Option.none (by decide)

/-- C9: only the `include_inactive` and `activity_filter` keys influence the
result: two options dicts that agree on those two lookups (absent key =
default) produce identical reports; any additional keys are ignored. -/
theorem C9_only_two_option_keys (users : List User) (min_age : Int)
    (opts1 opts2 : List (String × OptVal))
    (hinc : optGet opts1 "include_inactive" (OptVal.bool false) =
            optGet opts2 "include_inactive" (OptVal.bool false))
    (hfil : optGet opts1 "activity_filter" (OptVal.func (fun _ => true)) =
            optGet opts2 "activity_filter" (OptVal.func (fun _ => true))) :
    generate_user_activity_report users min_age (some opts1) =
      generate_user_activity_report users min_age (some opts2) := by
  unfold generate_user_activity_report includeInactiveOf activityFilterOf
  simp only [Option.getD_some]
  rw [hinc, hfil]

/-- C9 witness: an unrecognized `report_title` key is silently ignored. -/
theorem C9_only_two_option_keys_witness :
    generate_user_activity_report [alice, bob, charlie] 18
        (some [("report_title", OptVal.bool true)]) =
      generate_user_activity_report [alice, bob, charlie] 18 (some []) :=
  C9_only_two_option_keys [alice, bob, charlie] 18
    [("report_title", OptVal.bool true)] [] rfl rfl

/-- C10: binding the `activity_filter` key to `None` does not fall back to the
accept-all default: as soon as some qualifying user has at least one activity
(and no qualifying address fails first), the call fails with a `TypeError`
from calling the non-callable value. -/
theorem C10_none_filter_type_error (users : List User) (min_age : Int)
    (opts : List (String × OptVal))
    (hf : optGet opts "activity_filter" (OptVal.func (fun _ => true)) = OptVal.none)
    (haddr : ∀ u ∈ users,
      qualifies min_age (includeInactiveOf (some opts)).truthy u = true →
      ∃ s, formatAddress u.address = .ok s)
    (hex : ∃ u ∈ users,
      qualifies min_age (includeInactiveOf (some opts)).truthy u = true ∧
      u.activities ≠ []) :
    generate_user_activity_report users min_age (some opts) =
      .error PyError.typeErrorNotCallable := by
  have hfl : activityFilterOf (some opts) = OptVal.none := by
    simp only [activityFilterOf, Option.getD_some]
    exact hf
  rw [generate_eq, hfl]
  cases hm : mapExcept (buildEntry OptVal.none)
      (users.filter (qualifies min_age (includeInactiveOf (some opts)).truthy)) with
  | ok r =>
    exfalso
    obtain ⟨u, hu, hq, hne⟩ := hex
    have humem : u ∈ users.filter (qualifies min_age (includeInactiveOf (some opts)).truthy) :=
      List.mem_filter.mpr ⟨hu, hq⟩
    obtain ⟨b, hb⟩ := mapExcept_ok_forall hm u humem
    obtain ⟨s, hs⟩ := haddr u hu hq
    cases hacts : u.activities with
    | nil => exact hne hacts
    | cons a rest =>
      have hberr : buildEntry OptVal.none u = .error .typeErrorNotCallable := by
        unfold buildEntry
        rw [hs, hacts, renderActivities_none_cons]
      rw [hberr] at hb
      exact Except.noConfusion hb
  | error e =>
    obtain ⟨v, hv, hbv⟩ := mapExcept_error_mem hm
    have hvq := (List.mem_filter.mp hv).2
    have hvu := (List.mem_filter.mp hv).1
    obtain ⟨s, hs⟩ := haddr v hvu hvq
    rcases buildEntry_error_inv _ v e hbv with hfa | ⟨addr, _, hre⟩
    · rw [hs] at hfa
      exact Except.noConfusion hfa
    · cases hacts : v.activities with
      | nil =>
        rw [hacts] at hre
        exact Except.noConfusion hre
      | cons a rest =>
        rw [hacts, renderActivities_none_cons] at hre
        rw [Except.error.inj hre]

/-- C10 witness: with `activity_filter: None` and Alice qualifying with two
activities, the call raises `TypeError`. -/
theorem C10_none_filter_type_error_witness :
    generate_user_activity_report [alice] 18 (some [("activity_filter", OptVal.none)]) =
      .error PyError.typeErrorNotCallable :=
  C10_none_filter_type_error [alice] 18 [("activity_filter", OptVal.none)] rfl
    (fun u hu _ => by
      rcases List.mem_singleton.mp hu with rfl
      exact ⟨"123 Main St, Metropolis, USA", rfl⟩)
    ⟨alice, List.mem_cons_self alice [], by decide, by decide⟩

/-- C4: when the activity filter is a genuine predicate and all activities are
well-formed triples (the shapes declared by the source's type annotations), a
qualifying user whose address lacks one of the keys `street`, `city`,
`country` makes the whole call fail with a key-not-found error, with no
partial result ever returned. -/
theorem C4_missing_address_key_fails (users : List User) (min_age : Int)
    (options : Option (List (String × OptVal))) (f : PyActivity → Bool)
    (hf : activityFilterOf options = OptVal.func f)
    (hwf : ∀ u ∈ users, ∀ a ∈ u.activities, a.isTriple = true)
    (hmiss : ∃ u ∈ users,
      qualifies min_age (includeInactiveOf options).truthy u = true ∧
      (dictGet u.address "street" = Option.none ∨ dictGet u.address "city" = Option.none ∨
       dictGet u.address "country" = Option.none)) :
    (∃ k, generate_user_activity_report users min_age options = .error (PyError.keyError k)) ∧
    ∀ res, generate_user_activity_report users min_age options ≠ .ok res := by
  rw [generate_eq, hf]
  cases hm : mapExcept (buildEntry (OptVal.func f))
      (users.filter (qualifies min_age (includeInactiveOf options).truthy)) with
  | ok r =>
    exfalso
    obtain ⟨u, hu, hq, hkey⟩ := hmiss
    have humem : u ∈ users.filter (qualifies min_age (includeInactiveOf options).truthy) :=
      List.mem_filter.mpr ⟨hu, hq⟩
    obtain ⟨b, hb⟩ := mapExcept_ok_forall hm u humem
    obtain ⟨k, hk⟩ := formatAddress_missing u.address hkey
    have hberr : buildEntry (OptVal.func f) u = .error (.keyError k) := by
      unfold buildEntry
      rw [hk]
    rw [hberr] at hb
    exact Except.noConfusion hb
  | error e =>
    obtain ⟨v, hv, hbv⟩ := mapExcept_error_mem hm
    have hvu := (List.mem_filter.mp hv).1
    rcases buildEntry_error_inv _ v e hbv with hfa | ⟨addr, _, hre⟩
    · obtain ⟨k, hk⟩ := formatAddress_error_inv v.address e hfa
      exact ⟨⟨k, by rw [hk]⟩, fun res h => Except.noConfusion h⟩
    · exfalso
      obtain ⟨ss, hss⟩ := renderActivities_triples_ok f v.activities (hwf v hvu)
      rw [hss] at hre
      exact Except.noConfusion hre

/-- Alice with the `street` key missing from her address. -/
def aliceNoStreet : User :=
  { alice with address := [("city", "Metropolis"), ("country", "USA")] }

/-- C4 witness: a qualifying user without a `street` key makes the whole call
fail with a key-not-found error and never an ok result. -/
theorem C4_missing_address_key_fails_witness :
    (∃ k, generate_user_activity_report [aliceNoStreet] 18 Option.none =
      .error (PyError.keyError k)) ∧
    ∀ res, generate_user_activity_report [aliceNoStreet] 18 Option.none ≠ .ok res :=
  C4_missing_address_key_fails [aliceNoStreet] 18 Option.none (fun _ => true) rfl
    (by decide) ⟨aliceNoStreet, List.mem_cons_self aliceNoStreet [], by decide, Or.inl rfl⟩
